import Mathlib

/-!
Verification of the SSR Studio core (episode orchestrator, sandbox
execution layer, consistency validator, reward engine) against its
specification.

The Python source is embedded shallowly:
* Python `float` arithmetic in the reward engine is modelled exactly over `ℚ`
  (the reward formulas are treated as exact real arithmetic, as the spec does);
* Python `str` values that undergo `startswith` / `replace` / `in` operations
  are modelled as `List Char` (a Python string is a sequence of code points),
  with those operations given their documented Python semantics;
* stateful sandbox interaction is modelled by explicit inputs (exit codes,
  parsed harness output) and an explicit trace of the sandbox actions a
  function performs, in source order;
* fallible paths (JSON decoding, patch application, exceptions caught by a
  `try/except` that returns a failure report) are explicit `Option`/flag
  inputs.
-/

namespace SSRStudio

/-! ### Reward engine (`orchestrator.py`, `RewardCalculator.compute_injector_reward`) -/

/-- `RewardCalculator.compute_injector_reward` from `orchestrator.py`:
`-1` when the artifact is invalid, `-alpha` when the solve rate is exactly
`0` or exactly `1`, and `1 - (1 + alpha) * solve_rate` otherwise. -/
def compute_injector_reward (alpha : ℚ) (valid : Bool) (solve_rate : ℚ) : ℚ :=
  if valid = false then -1
  else if solve_rate = 0 ∨ solve_rate = 1 then -alpha
  else 1 - (1 + alpha) * solve_rate

/-- `RewardCalculator.compute_solver_reward` from `orchestrator.py`. -/
def compute_solver_reward (success : Bool) : ℚ :=
  if success then 1 else -1

/-- Default `reward_alpha` from `EpisodeConfig` in `models.py` (`0.8`). -/
def default_reward_alpha : ℚ := 4/5

/-! ### Episode pipeline (`orchestrator.py`, `EpisodeOrchestrator._run_pipeline`)

The pipeline is modelled from the point where the injector has run:
`artifactPresent` says whether the injector submitted an artifact,
`valid` is the validation report's verdict, and `attemptOutcome i`
describes attempt `i`: `none` means the solver produced no `pred_patch`
(so the attempt is never evaluated and keeps `success = False`), and
`some b` means the attempt was evaluated with success flag `b`. -/

/-- Episode status values relevant to the pipeline model (`models.py`). -/
inductive PipelineStatus
  | complete
  | failed
  deriving DecidableEq, Repr

/-- The fields of a persisted `SolverAttempt` that the pipeline invariants
are about. -/
structure AttemptRec where
  attempt_number : Nat
  pred_patch_present : Bool
  success : Bool
  deriving DecidableEq, Repr

/-- The episode fields written by `_run_pipeline`. -/
structure EpisodeRec where
  status : PipelineStatus
  attempts : List AttemptRec
  r_inject : Option ℚ
  solve_rate : Option ℚ
  r_solve_avg : Option ℚ
  deriving DecidableEq, Repr

/-- One solver attempt of the loop body of `_run_pipeline`: the attempt
record as stored, given the evaluation outcome for that attempt number. -/
def run_attempt (attemptOutcome : Nat → Option Bool) (i : Nat) : AttemptRec :=
  match attemptOutcome i with
  | some b => ⟨i, true, b⟩
  | none => ⟨i, false, false⟩

/-- `EpisodeOrchestrator._run_pipeline` from `orchestrator.py`, from artifact
submission onward.  No artifact fails the episode; an invalid artifact
completes it with `r_inject = -1` and no solver attempts; a valid artifact
runs attempts `1..solver_attempts` and computes solve rate and rewards
(the inline reward formula of the source).  `solver_attempts = 0` makes the
source raise `ZeroDivisionError`, which the caller `run_episode` turns into
a FAILED episode. -/
def run_pipeline (solver_attempts : Nat) (reward_alpha : ℚ)
    (artifactPresent : Bool) (valid : Bool)
    (attemptOutcome : Nat → Option Bool) : EpisodeRec :=
  if artifactPresent = false then ⟨.failed, [], none, none, none⟩
  else if valid = false then ⟨.complete, [], some (-1), none, none⟩
  else
    let attempts := (List.range' 1 solver_attempts).map (run_attempt attemptOutcome)
    if solver_attempts = 0 then ⟨.failed, attempts, none, none, none⟩
    else
      let successful : Nat := (attempts.filter (·.success)).length
      let s : ℚ := (successful : ℚ) / (solver_attempts : ℚ)
      let r_inject : ℚ :=
        if s = 0 ∨ s = 1 then -reward_alpha else 1 - (1 + reward_alpha) * s
      let r_solve_avg : ℚ :=
        ((attempts.map (fun a => if a.success then (1 : ℚ) else -1)).sum) /
          (attempts.length : ℚ)
      ⟨.complete, attempts, some r_inject, some s, some r_solve_avg⟩

/-! ### Per-attempt evaluator (`orchestrator.py`, `EpisodeOrchestrator._evaluate_attempt`)

The evaluator's sandbox interaction is modelled as an explicit action trace
(in source order), and its fallible inputs are explicit:
`applyExitCode` is the exit code of `patch -p1 < pred_patch.diff`,
`harnessParse` is `json.loads` of the harness stdout (`none` for a
`JSONDecodeError`), and `sandboxExn` says whether some call inside the
function's `try` block raised (the `except` returns a failure report). -/

/-- A sandbox action performed by `_evaluate_attempt`, in source order. -/
inductive EvalAction
  | checkoutBuggy
  | applyPredPatch
  | restoreTestFile (path : String)
  | runHarness
  deriving DecidableEq, Repr

/-- The inputs that determine one run of `_evaluate_attempt`. -/
structure EvalInput where
  predPatch : Option String
  applyExitCode : Int
  harnessParse : Option (List (String × String))
  sandboxExn : Bool
  deriving Repr

/-- The `EvaluationReport` fields set by `_evaluate_attempt` (`models.py`). -/
structure EvalReport where
  success : Bool
  tests_passed : Nat
  tests_failed : Nat
  tests_total : Nat
  per_test_status : List (String × String)
  deriving DecidableEq, Repr

/-- The failure report `_evaluate_attempt` returns on a failed patch apply,
a `JSONDecodeError`, or a caught exception (`success=False`, zero counts). -/
def evalFailReport : EvalReport := ⟨false, 0, 0, 0, []⟩

/-- Status coercion of `_evaluate_attempt` (`orchestrator.py` line 366):
`TestStatus(v) if v in ["passed", "failed"] else TestStatus.ERROR`. -/
def coerce_eval_status (v : String) : String :=
  if v = "passed" ∨ v = "failed" then v else "error"

/-- The tail of `_evaluate_attempt` after the predicted patch was applied (or
absent): restore every test file from `ssr-original`, run the harness, parse
its stdout, and succeed iff no parsed status differs from `"passed"`. -/
def evaluate_attempt_after_patch (test_files : List String) (inp : EvalInput)
    (tr : List EvalAction) : EvalReport × List EvalAction :=
  let tr2 := tr ++ test_files.map EvalAction.restoreTestFile ++ [EvalAction.runHarness]
  match inp.harnessParse with
  | some m =>
    let passed := m.countP (fun p => p.2 == "passed")
    let failed := m.countP (fun p => p.2 != "passed")
    (⟨failed == 0, passed, failed, m.length,
      m.map (fun p => (p.1, coerce_eval_status p.2))⟩, tr2)
  | none => (evalFailReport, tr2)

/-- `EpisodeOrchestrator._evaluate_attempt` from `orchestrator.py`:
checkout `ssr-buggy`; apply the predicted patch if present (a non-zero exit
returns a failure report at once); restore the test files; run the harness;
parse; succeed iff every status is `"passed"`.  Any exception inside the
`try` yields the failure report. -/
def evaluate_attempt (test_files : List String) (inp : EvalInput) :
    EvalReport × List EvalAction :=
  if inp.sandboxExn then (evalFailReport, [])
  else
    let tr0 := [EvalAction.checkoutBuggy]
    match inp.predPatch with
    | some _ =>
      let tr1 := tr0 ++ [EvalAction.applyPredPatch]
      if inp.applyExitCode ≠ 0 then (evalFailReport, tr1)
      else evaluate_attempt_after_patch test_files inp tr1
    | none => evaluate_attempt_after_patch test_files inp tr0

/-! ### Validator status coercion (`validator.py`, steps 2 and 5)

`_validate_parser` and `_validate_bug_validity` both coerce the parsed
status strings through `TestStatus(v) if v in TestStatus.__members__.values()
else <fallback>`; `TestStatus` is a `str` enum with members
`passed/failed/skipped/error`, so the membership test is a legal-status
check on the string. -/

/-- The legal `TestStatus` values (`models.py`). -/
def legal_test_statuses : List String := ["passed", "failed", "skipped", "error"]

/-- Step 2 (`_validate_parser`) status coercion: fallback `TestStatus.PASSED`. -/
def coerce_status_step2 (v : String) : String :=
  if v ∈ legal_test_statuses then v else "passed"

/-- Step 5 (`_validate_bug_validity`) status coercion: fallback
`TestStatus.FAILED` (`_validate_test_weakening` in step 6 uses the same
fallback). -/
def coerce_status_step5 (v : String) : String :=
  if v ∈ legal_test_statuses then v else "failed"

/-- What `json.loads` of the parser's stdout produced. -/
inductive ParserOut
  | decodeError
  | nonDict
  | dict (m : List (String × String))
  deriving Repr

/-- `Validator._validate_parser` (step 2) from `validator.py`, as a function
of the harness run's outcome: the step fails on a timeout, a non-zero exit
code, invalid JSON, or a non-object; otherwise it passes and records `M0` as
the mapping with every status coerced by `coerce_status_step2`.  Returns
(step passed, recorded `M0`). -/
def validate_parser_step (timedOut : Bool) (exitCode : Int) (parsed : ParserOut) :
    Bool × Option (List (String × String)) :=
  if timedOut then (false, none)
  else if exitCode ≠ 0 then (false, none)
  else
    match parsed with
    | .decodeError => (false, none)
    | .nonDict => (false, none)
    | .dict m => (true, some (m.map (fun p => (p.1, coerce_status_step2 p.2))))

/-- The `M1` recording of `Validator._validate_bug_validity` (step 5): every
parsed status is coerced by `coerce_status_step5`. -/
def record_bug_test_mapping (m : List (String × String)) : List (String × String) :=
  m.map (fun p => (p.1, coerce_status_step5 p.2))

/-! ### Solver test-file guard (`agents/solver.py`, `SolverAgent._tool_edit_file`)

Python strings are sequences of code points; the guard's operations
(`test_file in file_path`) are modelled on `List Char`.  Python's `in` on
strings is contiguous-substring containment. -/

/-- Python `needle in hay` for strings (contiguous substring containment). -/
def pyContains (hay needle : List Char) : Bool :=
  match hay with
  | [] => needle.isEmpty
  | _ :: rest => needle.isPrefixOf hay || pyContains rest needle

/-- The guard of `SolverAgent._tool_edit_file`:
`any(test_file in file_path for test_file in self.artifact.test_files)`. -/
def test_file_guard (test_files : List String) (file_path : String) : Bool :=
  test_files.any (fun t => pyContains file_path.data t.data)

/-- Outcome of a `_tool_edit_file` call: either the refusal message, or an
edit handed to `Sandbox.edit`. -/
inductive EditToolResult
  | refused (message : String)
  | edited (operation : String) (file_path : String)
  deriving DecidableEq, Repr

/-- `SolverAgent._tool_edit_file` from `agents/solver.py`: the test-file
guard runs before the operation dispatch, so a guarded path is refused for
every operation value and no `Sandbox.edit` call is made (the second
component lists the sandbox edit operations performed). -/
def tool_edit_file (test_files : List String) (file_path : String)
    (operation : String) : EditToolResult × List (String × String) :=
  if test_file_guard test_files file_path then
    (.refused "Error: Cannot edit test files. Only source code can be modified.", [])
  else
    (.edited operation file_path, [(operation, file_path)])

/-! ### Sandbox bash result (`sandbox.py`, `Sandbox.bash`)

`Sandbox.bash` truncates each decoded stream at `max_size = 50000`
characters (Python `len` on `str` counts code points) and flags either
truncation; an `asyncio.TimeoutError` yields a structured result with
`timeout=True` and exit code `-1`. -/

/-- The `BashResult` fields of `sandbox.py`. -/
structure BashResult where
  exit_code : Int
  stdout : String
  stderr : String
  truncated : Bool
  timeout : Bool
  deriving DecidableEq, Repr

/-- The per-stream cap of `Sandbox.bash` (`max_size = 50000  # 50KB`). -/
def bash_max_stream_size : Nat := 50000

/-- Stream truncation in `Sandbox.bash`: keep the first 50000 characters and
append the marker when the stream is longer. -/
def truncate_stream (s : String) : String × Bool :=
  if s.length > bash_max_stream_size then
    (⟨s.data.take bash_max_stream_size⟩ ++ "\n... [truncated]", true)
  else (s, false)

/-- Result construction of `Sandbox.bash`: on a timeout, exit code `-1`,
empty stdout, a timeout message and `timeout=True`; otherwise both streams
are truncated and `truncated` is set when either stream was. -/
def bash_build_result (timedOut : Bool) (exitCode : Int) (stdout stderr : String)
    (timeoutSec : Nat) : BashResult :=
  if timedOut then
    ⟨-1, "", "Command timed out after " ++ toString timeoutSec ++ "s", false, true⟩
  else
    let o := truncate_stream stdout
    let e := truncate_stream stderr
    ⟨exitCode, o.1, e.1, o.2 || e.2, false⟩

/-! ### Diff reversal (`agents/solver.py`, `SolverAgent._reverse_diff`)

`_reverse_diff` is a line-wise transformation of the Python string, using
`str.split`, `str.startswith`, `str.replace` and slicing; those are modelled
on `List Char` with Python semantics. -/

/-- Python `s.startswith(pre)` for strings. -/
def pyStartsWith (s pre : List Char) : Bool :=
  pre.isPrefixOf s

/-- Fuel-bounded worker for `pyReplace`; the fuel is an upper bound on the
number of characters consumed and is structural, so the function evaluates
by kernel reduction.  Each step consumes at least one character, so fuel
`s.length` never runs out. -/
def pyReplaceAux (pat rep : List Char) : Nat → List Char → List Char
  | _, [] => []
  | 0, s => s
  | fuel + 1, c :: rest =>
    if pat ≠ [] ∧ pat.isPrefixOf (c :: rest) = true then
      rep ++ pyReplaceAux pat rep fuel (rest.drop (pat.length - 1))
    else
      c :: pyReplaceAux pat rep fuel rest

/-- Python `s.replace(pat, rep)` for strings: replace every non-overlapping
occurrence of `pat`, scanning left to right (the replacement text is not
rescanned).  `_reverse_diff` only calls it with non-empty patterns; for an
empty pattern this model returns `s` unchanged. -/
def pyReplace (pat rep : List Char) (s : List Char) : List Char :=
  pyReplaceAux pat rep s.length s

/-- One line of `SolverAgent._reverse_diff`: `---`/`+++` header lines get the
two chained `replace` calls of the source; other `+` lines become `-` lines
and vice versa; anything else is unchanged. -/
def reverse_diff_line (line : List Char) : List Char :=
  if pyStartsWith line "---".data then
    pyReplace "--- b/".data "--- a/".data (pyReplace "--- a/".data "--- b/".data line)
  else if pyStartsWith line "+++".data then
    pyReplace "+++ a/".data "+++ b/".data (pyReplace "+++ b/".data "+++ a/".data line)
  else if pyStartsWith line "+".data && !(pyStartsWith line "+++".data) then
    '-' :: line.drop 1
  else if pyStartsWith line "-".data && !(pyStartsWith line "---".data) then
    '+' :: line.drop 1
  else
    line

/-- `SolverAgent._reverse_diff` from `agents/solver.py`: split on newlines,
transform each line, join with newlines. -/
def reverse_diff (diff : List Char) : List Char :=
  List.intercalate ['\n'] ((diff.splitOn '\n').map reverse_diff_line)

/-- `SolverAgent._get_oracle_test_patch`: the oracle patch handed to the
solver is `_reverse_diff` of the artifact's `test_weaken_diff`. -/
def get_oracle_test_patch (test_weaken_diff : List Char) : List Char :=
  reverse_diff test_weaken_diff

/-! ### Unified-diff hunk application (external `patch` utility)

The repository delegates diff application to `patch -p1` in the sandbox;
that utility is not part of `src/`. -/

/-- A body line of a unified-diff hunk: context, removed, or added. -/
inductive DiffLine
  | ctx (s : List Char)
  | del (s : List Char)
  | add (s : List Char)
  deriving DecidableEq, Repr

/-- Rendering of a hunk body line in unified-diff text. -/
def renderDiffLine : DiffLine → List Char
  | .ctx s => ' ' :: s
  | .del s => '-' :: s
  | .add s => '+' :: s

/-- Reversal of one hunk body line: added and removed lines swap. -/
def swapDiffLine : DiffLine → DiffLine
  | .ctx s => .ctx s
  | .del s => .add s
  | .add s => .del s

/-- Modelled from the spec: application of a unified-diff hunk body to the
lines of a file, as done by the standard patch utility at patch level 1
(the utility itself is missing from `src/`; the spec delegates to "a
standard unified-diff applier").  Context and removed lines must match the
file; lines after the hunk are kept. -/
def applyHunkBody : List DiffLine → List (List Char) → Option (List (List Char))
  | [], ls => some ls
  | .ctx s :: rest, l :: ls =>
    if l = s then (applyHunkBody rest ls).map (s :: ·) else none
  | .ctx _ :: _, [] => none
  | .del s :: rest, l :: ls =>
    if l = s then applyHunkBody rest ls else none
  | .del _ :: _, [] => none
  | .add s :: rest, ls => (applyHunkBody rest ls).map (s :: ·)

/-- A hunk body whose rendered added lines do not begin with `++` and whose
rendered removed lines do not begin with `--` (so that the rendered lines do
not collide with the `+++`/`---` header branches of `_reverse_diff`). -/
def wellFormedHunkBody (body : List DiffLine) : Bool :=
  body.all fun dl =>
    match dl with
    | .ctx _ => true
    | .add s => !(['+', '+'].isPrefixOf s)
    | .del s => !(['-', '-'].isPrefixOf s)

/-! ## Theorems -/

/-- Helper: the middle-branch value of the injector reward for `0 < s < 1`. -/
theorem compute_injector_reward_mid (alpha s : ℚ) (h0 : 0 < s) (h1 : s < 1) :
    compute_injector_reward alpha true s = 1 - (1 + alpha) * s := by
  unfold compute_injector_reward
  rw [if_neg (by simp), if_neg ?_]
  rintro (rfl | rfl)
  · exact absurd h0 (lt_irrefl 0)
  · exact absurd h1 (lt_irrefl 1)

/-- C1: for every episode with a validated artifact, the injector reward is
`-1` when the verdict is invalid, `-alpha` when the artifact is valid and the
solve rate `s` is exactly `0` or exactly `1`, and `1 - (1 + alpha) * s` when
`0 < s < 1`; in `_run_pipeline` the reward stored for a valid artifact is
exactly `compute_injector_reward` of the stored solve rate
`s = successful_attempts / N`; for `alpha = 0.8` and `s = 0.5` the result is
`0.1`. -/
theorem reward_C1 (alpha s : ℚ) :
    compute_injector_reward alpha false s = -1
    ∧ (s = 0 ∨ s = 1 → compute_injector_reward alpha true s = -alpha)
    ∧ (0 < s → s < 1 → compute_injector_reward alpha true s = 1 - (1 + alpha) * s)
    ∧ (∀ (N : Nat) (ev : Nat → Option Bool),
        (run_pipeline N alpha true true ev).r_inject =
          ((run_pipeline N alpha true true ev).solve_rate).map
            (compute_injector_reward alpha true))
    ∧ compute_injector_reward default_reward_alpha true (1/2) = 1/10 := by
  refine ⟨rfl, ?_, compute_injector_reward_mid alpha s, ?_, ?_⟩
  · intro h
    unfold compute_injector_reward
    rw [if_neg (by simp), if_pos h]
  · intro N ev
    unfold run_pipeline
    rw [if_neg (by simp), if_neg (by simp)]
    by_cases hN : N = 0
    · simp [hN]
    · rw [if_neg hN]
      rfl
  · rw [compute_injector_reward_mid _ _ (by norm_num) (by norm_num),
      default_reward_alpha]
    norm_num

/-- Witness for C1 at concrete inputs: `alpha = 4/5` with `s = 0` gives
`-4/5`, and with `s = 1/2` gives `1 - (1 + 4/5) * (1/2) = 1/10`. -/
theorem reward_C1_witness :
    compute_injector_reward (4/5) true 0 = -(4/5)
    ∧ compute_injector_reward (4/5) true (1/2) = 1 - (1 + 4/5) * (1/2) := by
  refine ⟨(reward_C1 (4/5) 0).2.1 (Or.inl rfl),
    (reward_C1 (4/5) (1/2)).2.2.1 (by norm_num) (by norm_num)⟩

/-- C6: for a valid artifact and `alpha ∈ (0, 1]`, the injector reward is
strictly decreasing in the solve rate on `(0, 1)`, is zero exactly at
`s = 1 / (1 + alpha)`, equals `-alpha` at `s = 0` and `s = 1`, and is
bounded below by `-max 1 alpha` on `[0, 1]`. -/
theorem reward_C6 (alpha : ℚ) (ha0 : 0 < alpha) (ha1 : alpha ≤ 1) :
    (∀ s t, 0 < s → s < t → t < 1 →
      compute_injector_reward alpha true t < compute_injector_reward alpha true s)
    ∧ (∀ s, 0 < s → s < 1 →
        (compute_injector_reward alpha true s = 0 ↔ s = 1 / (1 + alpha)))
    ∧ compute_injector_reward alpha true 0 = -alpha
    ∧ compute_injector_reward alpha true 1 = -alpha
    ∧ (∀ s, 0 ≤ s → s ≤ 1 →
        -(max 1 alpha) ≤ compute_injector_reward alpha true s) := by
  have hpos : (0 : ℚ) < 1 + alpha := by linarith
  refine ⟨?_, ?_, ?_, ?_, ?_⟩
  · intro s t hs hst ht1
    rw [compute_injector_reward_mid alpha s hs (lt_trans hst ht1),
      compute_injector_reward_mid alpha t (lt_trans hs hst) ht1]
    nlinarith
  · intro s hs0 hs1
    rw [compute_injector_reward_mid alpha s hs0 hs1]
    constructor
    · intro h
      field_simp
      linarith
    · intro h
      rw [h]
      field_simp
  · unfold compute_injector_reward
    rw [if_neg (by simp), if_pos (Or.inl rfl)]
  · unfold compute_injector_reward
    rw [if_neg (by simp), if_pos (Or.inr rfl)]
  · intro s hs0 hs1
    have hmax : max 1 alpha = 1 := max_eq_left ha1
    rcases eq_or_lt_of_le hs0 with h0 | h0
    · unfold compute_injector_reward
      rw [if_neg (by simp), if_pos (Or.inl h0.symm), hmax]
      linarith
    · rcases eq_or_lt_of_le hs1 with h1 | h1
      · unfold compute_injector_reward
        rw [if_neg (by simp), if_pos (Or.inr h1), hmax]
        linarith
      · rw [compute_injector_reward_mid alpha s h0 h1, hmax]
        nlinarith

/-- Witness for C6 at `alpha = 4/5`: the reward decreases from `s = 1/4` to
`s = 3/4`, vanishes at `s = 5/9 = 1/(1 + 4/5)`, equals `-4/5` at the
endpoints, and respects the lower bound at `s = 1/2`. -/
theorem reward_C6_witness :
    compute_injector_reward (4/5) true (3/4) < compute_injector_reward (4/5) true (1/4)
    ∧ compute_injector_reward (4/5) true (5/9) = 0
    ∧ compute_injector_reward (4/5) true 0 = -(4/5)
    ∧ -(max 1 (4/5)) ≤ compute_injector_reward (4/5) true (1/2) := by
  have h := reward_C6 (4/5) (by norm_num) (by norm_num)
  exact ⟨h.1 _ _ (by norm_num) (by norm_num) (by norm_num),
    (h.2.1 (5/9) (by norm_num) (by norm_num)).mpr (by norm_num),
    h.2.2.1,
    h.2.2.2.2 _ (by norm_num) (by norm_num)⟩

/-- Helper: the attempt number stored by the loop body is the loop index. -/
theorem run_attempt_number (ev : Nat → Option Bool) (i : Nat) :
    (run_attempt ev i).attempt_number = i := by
  unfold run_attempt
  cases ev i <;> rfl

/-- C2: for every episode that reaches COMPLETE, a valid validation report
means exactly `N = config.solver_attempts` solver attempts are recorded, one
per attempt number `1..N`, and an invalid report means zero solver attempts
and `r_inject = -1`. -/
theorem pipeline_C2 (N : Nat) (alpha : ℚ) (artifactPresent valid : Bool)
    (ev : Nat → Option Bool)
    (hc : (run_pipeline N alpha artifactPresent valid ev).status = .complete) :
    (valid = true →
      (run_pipeline N alpha artifactPresent valid ev).attempts.length = N
      ∧ (run_pipeline N alpha artifactPresent valid ev).attempts.map
          (·.attempt_number) = List.range' 1 N)
    ∧ (valid = false →
      (run_pipeline N alpha artifactPresent valid ev).attempts = []
      ∧ (run_pipeline N alpha artifactPresent valid ev).r_inject = some (-1)) := by
  cases artifactPresent with
  | false => exact absurd hc (by simp [run_pipeline])
  | true =>
    cases valid with
    | false => exact ⟨fun h => by simp at h, fun _ => by simp [run_pipeline]⟩
    | true =>
      refine ⟨fun _ => ?_, fun h => by simp at h⟩
      by_cases hN : N = 0
      · exact absurd hc (by simp [run_pipeline, hN])
      · unfold run_pipeline
        rw [if_neg (by simp), if_neg (by simp), if_neg hN]
        constructor
        · simp [List.length_map, List.length_range']
        · show ((List.range' 1 N).map (run_attempt ev)).map (·.attempt_number) = _
          rw [List.map_map]
          exact List.map_congr_left (fun i _ => run_attempt_number ev i) |>.trans
            (List.map_id _)

/-- Witness for C2 at `N = 2`: a valid report records attempts numbered
`[1, 2]`; an invalid report records no attempts and `r_inject = -1`. -/
theorem pipeline_C2_witness :
    (run_pipeline 2 (4/5) true true (fun i => some (i == 1))).attempts.map
        (·.attempt_number) = [1, 2]
    ∧ (run_pipeline 2 (4/5) true false (fun _ => none)).attempts = []
    ∧ (run_pipeline 2 (4/5) true false (fun _ => none)).r_inject = some (-1) := by
  have h1 := pipeline_C2 2 (4/5) true true (fun i => some (i == 1)) rfl
  have h2 := pipeline_C2 2 (4/5) true false (fun _ => none) rfl
  exact ⟨(h1.1 rfl).2, (h2.2 rfl).1, (h2.2 rfl).2⟩

/-- Helper: the success flag computed from a parsed harness mapping is true
exactly when every parsed status equals `"passed"`. -/
theorem eval_success_iff (m : List (String × String)) :
    ((m.countP (fun p => p.2 != "passed") == 0) = true) ↔ ∀ q ∈ m, q.2 = "passed" := by
  rw [beq_iff_eq, List.countP_eq_zero]
  simp

/-- C3: for every evaluated attempt whose predicted patch applies, every file
in `artifact.test_files` is restored before the test harness runs (the
trace is checkout, optional patch apply, the restores, then the harness
run), and the attempt succeeds iff every parsed status equals `passed`. -/
theorem evaluator_C3 (test_files : List String) (inp : EvalInput)
    (m : List (String × String))
    (hexn : inp.sandboxExn = false)
    (hparse : inp.harnessParse = some m)
    (happly : ∀ p, inp.predPatch = some p → inp.applyExitCode = 0) :
    (evaluate_attempt test_files inp).2 =
      [EvalAction.checkoutBuggy]
        ++ (match inp.predPatch with
            | some _ => [EvalAction.applyPredPatch]
            | none => [])
        ++ test_files.map EvalAction.restoreTestFile ++ [EvalAction.runHarness]
    ∧ ((evaluate_attempt test_files inp).1.success = true ↔
        ∀ q ∈ m, q.2 = "passed") := by
  unfold evaluate_attempt
  rw [hexn]
  cases hp : inp.predPatch with
  | none =>
    simp only [reduceIte]
    unfold evaluate_attempt_after_patch
    rw [hparse]
    exact ⟨rfl, eval_success_iff m⟩
  | some p =>
    have hc : ¬(inp.applyExitCode ≠ 0) := fun hne => hne (happly p hp)
    simp only [reduceIte]
    rw [if_neg hc]
    unfold evaluate_attempt_after_patch
    rw [hparse]
    exact ⟨rfl, eval_success_iff m⟩

/-- Witness for C3: a two-test run where one status is `skipped` restores the
test file before the harness run and is judged unsuccessful; the same run
with both tests `passed` succeeds. -/
theorem evaluator_C3_witness :
    (evaluate_attempt ["tests/t.py"]
        ⟨some "p", 0, some [("t1", "passed"), ("t2", "skipped")], false⟩).2 =
      [EvalAction.checkoutBuggy, EvalAction.applyPredPatch,
        EvalAction.restoreTestFile "tests/t.py", EvalAction.runHarness]
    ∧ (evaluate_attempt ["tests/t.py"]
        ⟨some "p", 0, some [("t1", "passed"), ("t2", "skipped")], false⟩).1.success = false
    ∧ (evaluate_attempt ["tests/t.py"]
        ⟨some "p", 0, some [("t1", "passed"), ("t2", "passed")], false⟩).1.success = true := by
  have h1 := evaluator_C3 ["tests/t.py"]
    ⟨some "p", 0, some [("t1", "passed"), ("t2", "skipped")], false⟩
    [("t1", "passed"), ("t2", "skipped")] rfl rfl (fun _ _ => rfl)
  have h2 := evaluator_C3 ["tests/t.py"]
    ⟨some "p", 0, some [("t1", "passed"), ("t2", "passed")], false⟩
    [("t1", "passed"), ("t2", "passed")] rfl rfl (fun _ _ => rfl)
  refine ⟨by simpa using h1.1, ?_, h2.2.mpr (by simp)⟩
  have := h1.2
  revert this
  decide

/-- C9: the per-attempt evaluator is total on its modelled inputs and never
escalates: a caught sandbox exception, a predicted patch whose apply exits
non-zero, and unparseable harness output each yield a report with
`success = false`; in the failed-apply case the evaluator returns at once,
performing no test-file restoration and no harness run. -/
theorem evaluator_C9 (test_files : List String) (inp : EvalInput) :
    (inp.sandboxExn = true → (evaluate_attempt test_files inp).1 = evalFailReport
      ∧ (evaluate_attempt test_files inp).1.success = false)
    ∧ (∀ p, inp.sandboxExn = false → inp.predPatch = some p →
        inp.applyExitCode ≠ 0 →
        (evaluate_attempt test_files inp).1 = evalFailReport
        ∧ (evaluate_attempt test_files inp).2 =
            [EvalAction.checkoutBuggy, EvalAction.applyPredPatch])
    ∧ (inp.sandboxExn = false → inp.harnessParse = none →
        (evaluate_attempt test_files inp).1 = evalFailReport) := by
  refine ⟨fun hexn => ?_, fun p hexn hp hcode => ?_, fun hexn hparse => ?_⟩
  · unfold evaluate_attempt
    rw [hexn]
    exact ⟨rfl, rfl⟩
  · unfold evaluate_attempt
    rw [hexn, hp]
    simp only [reduceIte]
    rw [if_pos hcode]
    exact ⟨rfl, rfl⟩
  · unfold evaluate_attempt evaluate_attempt_after_patch
    rw [hexn]
    cases hp : inp.predPatch with
    | none => simp [hparse]
    | some p =>
      by_cases hcode : inp.applyExitCode ≠ 0
      · simp [hcode]
      · simp only [ne_eq, not_not] at hcode
        simp [hcode, hparse]

/-- Witness for C9 at concrete inputs: an exception, a failed patch apply,
and invalid harness JSON each produce the failure report; the failed apply
performs only the checkout and patch actions. -/
theorem evaluator_C9_witness :
    (evaluate_attempt ["tests/t.py"] ⟨some "p", 0, some [], true⟩).1 = evalFailReport
    ∧ (evaluate_attempt ["tests/t.py"] ⟨some "p", 1, some [], false⟩).1 = evalFailReport
    ∧ (evaluate_attempt ["tests/t.py"] ⟨some "p", 1, some [], false⟩).2 =
        [EvalAction.checkoutBuggy, EvalAction.applyPredPatch]
    ∧ (evaluate_attempt ["tests/t.py"] ⟨some "p", 0, none, false⟩).1 = evalFailReport := by
  have h1 := evaluator_C9 ["tests/t.py"] ⟨some "p", 0, some [], true⟩
  have h2 := evaluator_C9 ["tests/t.py"] ⟨some "p", 1, some [], false⟩
  have h3 := evaluator_C9 ["tests/t.py"] ⟨some "p", 0, none, false⟩
  exact ⟨(h1.1 rfl).1, (h2.2.1 "p" rfl rfl (by decide)).1,
    (h2.2.1 "p" rfl rfl (by decide)).2, h3.2.2 rfl rfl⟩

/-- C4 (code bug): validation step 2 does not treat an unknown status value
as `error` — the parser step passes on `{"t1": "bogus"}` and records `t1` as
`passed` in `M0` (`TestStatus.PASSED` fallback), and step 5 records an
unknown status as `failed` in `M1` (`TestStatus.FAILED` fallback), while the
claim (and the evaluator in `orchestrator.py`, which maps unknown statuses
to `TestStatus.ERROR`) require `error`. -/
theorem validator_C4_bug :
    validate_parser_step false 0 (.dict [("t1", "bogus")]) =
      (true, some [("t1", "passed")])
    ∧ coerce_status_step2 "bogus" = "passed"
    ∧ record_bug_test_mapping [("t1", "bogus")] = [("t1", "failed")]
    ∧ coerce_status_step2 "bogus" ≠ "error"
    ∧ coerce_status_step5 "bogus" ≠ "error" := by
  decide

/-- Helper: a list is a Python-substring of any list it is an infix of. -/
theorem pyContains_of_infix {needle hay : List Char} (h : needle <:+: hay) :
    pyContains hay needle = true := by
  induction hay with
  | nil =>
    rw [List.infix_nil] at h
    subst h
    rfl
  | cons c rest ih =>
    rcases List.infix_cons_iff.mp h with hpre | hinf
    · unfold pyContains
      simp only [Bool.or_eq_true, List.isPrefixOf_iff_prefix]
      exact Or.inl hpre
    · unfold pyContains
      simp only [Bool.or_eq_true]
      exact Or.inr (ih hinf)

/-- Helper: Python substring containment implies list infix. -/
theorem infix_of_pyContains {needle hay : List Char}
    (h : pyContains hay needle = true) : needle <:+: hay := by
  induction hay with
  | nil =>
    rw [show pyContains [] needle = needle.isEmpty from rfl,
      List.isEmpty_iff] at h
    subst h
    exact List.infix_refl []
  | cons c rest ih =>
    unfold pyContains at h
    rw [Bool.or_eq_true] at h
    rcases h with hpre | hrec
    · exact (List.isPrefixOf_iff_prefix.mp hpre).isInfix
    · exact (ih hrec).trans (List.infix_cons (List.infix_refl rest))

/-- C7: every solver `edit_file` call whose `file_path` is one of the
artifact's `test_files` is refused with the error message and performs no
sandbox edit, for every operation value (the guard precedes the operation
dispatch). -/
theorem solver_C7 (test_files : List String) (file_path : String)
    (operation : String) (hmem : file_path ∈ test_files) :
    tool_edit_file test_files file_path operation =
      (.refused "Error: Cannot edit test files. Only source code can be modified.",
        []) := by
  unfold tool_edit_file
  rw [if_pos ?_]
  unfold test_file_guard
  rw [List.any_eq_true]
  exact ⟨file_path, hmem, pyContains_of_infix (List.infix_refl _)⟩

/-- Witness for C7: a path listed in `test_files` is refused with no edit
action for each of the five operation types. -/
theorem solver_C7_witness :
    tool_edit_file ["tests/test_calculator.py"] "tests/test_calculator.py" "replace" =
      (.refused "Error: Cannot edit test files. Only source code can be modified.", [])
    ∧ tool_edit_file ["tests/test_calculator.py"] "tests/test_calculator.py" "search_replace" =
      (.refused "Error: Cannot edit test files. Only source code can be modified.", [])
    ∧ tool_edit_file ["tests/test_calculator.py"] "tests/test_calculator.py" "insert" =
      (.refused "Error: Cannot edit test files. Only source code can be modified.", [])
    ∧ tool_edit_file ["tests/test_calculator.py"] "tests/test_calculator.py" "delete" =
      (.refused "Error: Cannot edit test files. Only source code can be modified.", [])
    ∧ tool_edit_file ["tests/test_calculator.py"] "tests/test_calculator.py" "apply_diff" =
      (.refused "Error: Cannot edit test files. Only source code can be modified.", []) := by
  exact ⟨solver_C7 _ _ _ (by simp), solver_C7 _ _ _ (by simp),
    solver_C7 _ _ _ (by simp), solver_C7 _ _ _ (by simp),
    solver_C7 _ _ _ (by simp)⟩

/-- C10: the `edit_file` guard is substring-based — a call is refused exactly
when `file_path` contains some element of `test_files` as a contiguous
substring (so also for paths not in `test_files` that embed one), and every
refused call performs no sandbox edit. -/
theorem solver_C10 (test_files : List String) (file_path : String)
    (operation : String) :
    ((tool_edit_file test_files file_path operation).1 =
        .refused "Error: Cannot edit test files. Only source code can be modified."
      ↔ ∃ t ∈ test_files, t.data <:+: file_path.data)
    ∧ (∀ t ∈ test_files, t.data <:+: file_path.data →
        (tool_edit_file test_files file_path operation).2 = []) := by
  have hiff : test_file_guard test_files file_path = true ↔
      ∃ t ∈ test_files, t.data <:+: file_path.data := by
    unfold test_file_guard
    rw [List.any_eq_true]
    constructor
    · rintro ⟨t, ht, hc⟩
      exact ⟨t, ht, infix_of_pyContains hc⟩
    · rintro ⟨t, ht, hi⟩
      exact ⟨t, ht, pyContains_of_infix hi⟩
  constructor
  · unfold tool_edit_file
    cases hg : test_file_guard test_files file_path with
    | true =>
      simp only [reduceIte]
      exact ⟨fun _ => hiff.mp hg, fun _ => trivial⟩
    | false =>
      simp only [Bool.false_eq_true, reduceIte]
      exact iff_of_false (by simp) (fun hex => by
        rw [hiff.mpr hex] at hg
        exact Bool.noConfusion hg)
  · intro t ht hi
    unfold tool_edit_file
    rw [if_pos (hiff.mpr ⟨t, ht, hi⟩)]

set_option maxRecDepth 8192 in
/-- Witness for C10: `src/tests/test_calc.py.orig` is not in `test_files`
but contains the test file `tests/test_calc.py` as a substring, so the edit
is refused and no sandbox edit happens. -/
theorem solver_C10_witness :
    (tool_edit_file ["tests/test_calc.py"] "src/tests/test_calc.py.orig" "replace").1 =
      .refused "Error: Cannot edit test files. Only source code can be modified."
    ∧ (tool_edit_file ["tests/test_calc.py"] "src/tests/test_calc.py.orig" "replace").2 = []
    ∧ "src/tests/test_calc.py.orig" ∉ ["tests/test_calc.py"] := by
  have h := solver_C10 ["tests/test_calc.py"] "src/tests/test_calc.py.orig" "replace"
  have hinf : "tests/test_calc.py".data <:+: "src/tests/test_calc.py.orig".data := by
    refine ⟨"src/".data, ".orig".data, ?_⟩
    rfl
  exact ⟨h.1.mpr ⟨_, by simp, hinf⟩, h.2 _ (by simp) hinf, by simp⟩

/-- Helper: the truncated flag of one stream is exactly the comparison of its
character count with the 50000 cap. -/
theorem truncate_stream_truncated (s : String) :
    (truncate_stream s).2 = decide (s.length > bash_max_stream_size) := by
  unfold truncate_stream
  by_cases h : s.length > bash_max_stream_size
  · simp [h]
  · simp [h]

/-- Helper: the `truncated` field of a non-timed-out bash result is the
disjunction of the per-stream truncation flags. -/
theorem bash_build_result_truncated (ec : Int) (out err : String) (t : Nat) :
    (bash_build_result false ec out err t).truncated =
      ((truncate_stream out).2 || (truncate_stream err).2) := rfl

/-- C8 counterexample: the cap is not 50 KiB.  A 51000-character stream is at
most 50 KiB (51200 bytes for one-byte characters) so the claim says it is
not truncated, yet `Sandbox.bash` truncates it and sets the flag (the code
cap is 50000 characters). -/
theorem sandbox_C8_counterexample :
    (String.mk (List.replicate 51000 'a')).length ≤ 51200
    ∧ (bash_build_result false 0 (String.mk (List.replicate 51000 'a')) "" 300).truncated
        = true := by
  constructor
  · rw [String.length_mk, List.length_replicate]
    norm_num
  · rw [bash_build_result_truncated, truncate_stream_truncated,
      truncate_stream_truncated, String.length_mk, List.length_replicate]
    decide

/-- C8 (amended): each stream is truncated at a fixed 50000-character cap
with the `truncated` flag set exactly when either stream exceeds it, and a
timed-out command yields a structured result with `timeout = true` and the
non-zero sentinel exit code `-1`. -/
theorem sandbox_C8_amended (out err : String) (ec : Int) (t : Nat) :
    (bash_build_result false ec out err t).truncated =
      (decide (out.length > bash_max_stream_size) ||
        decide (err.length > bash_max_stream_size))
    ∧ (bash_build_result false ec out err t).exit_code = ec
    ∧ (bash_build_result false ec out err t).timeout = false
    ∧ (bash_build_result true ec out err t).timeout = true
    ∧ (bash_build_result true ec out err t).exit_code = -1
    ∧ (bash_build_result true ec out err t).exit_code ≠ 0 := by
  refine ⟨?_, rfl, rfl, rfl, rfl, ?_⟩
  · show ((truncate_stream out).2 || (truncate_stream err).2) = _
    rw [truncate_stream_truncated, truncate_stream_truncated]
  · show (-1 : Int) ≠ 0
    decide

/-- C5 counterexample: `_reverse_diff` does not swap the `a/` and `b/` path
prefixes of standard file headers.  On a concrete weaken diff the two
chained `replace` calls cancel, leaving `--- a/` and `+++ b/` unchanged, so
the oracle patch differs from the claim's header-swapped reversal (the `+`/
`-` body lines are swapped). -/
theorem solver_C5_counterexample :
    get_oracle_test_patch "--- a/t.py\n+++ b/t.py\n@@ -1,2 +1,1 @@\n x\n-y".data =
      "--- a/t.py\n+++ b/t.py\n@@ -1,2 +1,1 @@\n x\n+y".data
    ∧ get_oracle_test_patch "--- a/t.py\n+++ b/t.py\n@@ -1,2 +1,1 @@\n x\n-y".data ≠
      "--- b/t.py\n+++ a/t.py\n@@ -1,2 +1,1 @@\n x\n+y".data := by
  decide

/-- Helper: a context line is left unchanged by `_reverse_diff`. -/
theorem reverse_diff_line_ctx (s : List Char) :
    reverse_diff_line (' ' :: s) = ' ' :: s := by
  unfold reverse_diff_line
  rfl

/-- Helper: an added line whose content does not itself start with `++`
becomes a removed line. -/
theorem reverse_diff_line_add (s : List Char)
    (h : ['+', '+'].isPrefixOf s = false) :
    reverse_diff_line ('+' :: s) = '-' :: s := by
  unfold reverse_diff_line pyStartsWith
  simp only [show ("---".data.isPrefixOf ('+' :: s)) = false from rfl,
    show ("+++".data.isPrefixOf ('+' :: s)) = ['+', '+'].isPrefixOf s from rfl,
    show ("+".data.isPrefixOf ('+' :: s)) = ([] : List Char).isPrefixOf s from rfl,
    List.isPrefixOf_nil_left, h]
  simp

/-- Helper: a removed line whose content does not itself start with `--`
becomes an added line. -/
theorem reverse_diff_line_del (s : List Char)
    (h : ['-', '-'].isPrefixOf s = false) :
    reverse_diff_line ('-' :: s) = '+' :: s := by
  unfold reverse_diff_line pyStartsWith
  simp only [show ("---".data.isPrefixOf ('-' :: s)) = ['-', '-'].isPrefixOf s from rfl,
    show ("+++".data.isPrefixOf ('-' :: s)) = false from rfl,
    show ("+".data.isPrefixOf ('-' :: s)) = false from rfl,
    show ("-".data.isPrefixOf ('-' :: s)) = ([] : List Char).isPrefixOf s from rfl,
    List.isPrefixOf_nil_left, h]
  simp

/-- Helper: on a well-formed hunk body, reversing the rendered lines agrees
with rendering the swapped body. -/
theorem render_reverse_eq_swap (body : List DiffLine)
    (hwf : wellFormedHunkBody body = true) :
    (body.map renderDiffLine).map reverse_diff_line =
      (body.map swapDiffLine).map renderDiffLine := by
  induction body with
  | nil => rfl
  | cons dl rest ih =>
    rw [wellFormedHunkBody, List.all_cons, Bool.and_eq_true] at hwf
    have htail := ih hwf.2
    cases dl with
    | ctx s =>
      simp only [List.map_cons, renderDiffLine, swapDiffLine,
        reverse_diff_line_ctx, htail]
    | add s =>
      have hs : (['+', '+'].isPrefixOf s) = false := by
        simpa using hwf.1
      simp only [List.map_cons, renderDiffLine, swapDiffLine,
        reverse_diff_line_add s hs, htail]
    | del s =>
      have hs : (['-', '-'].isPrefixOf s) = false := by
        simpa using hwf.1
      simp only [List.map_cons, renderDiffLine, swapDiffLine,
        reverse_diff_line_del s hs, htail]

/-- Helper: swapping a hunk body inverts its application — if the body turns
`base` into `weak`, the swapped body turns `weak` back into `base`. -/
theorem applyHunkBody_swap (body : List DiffLine) :
    ∀ base weak, applyHunkBody body base = some weak →
      applyHunkBody (body.map swapDiffLine) weak = some base := by
  induction body with
  | nil =>
    intro base weak h
    have h' : base = weak := Option.some_inj.mp h
    subst h'
    rfl
  | cons dl rest ih =>
    intro base weak h
    cases dl with
    | ctx s =>
      cases base with
      | nil => exact absurd h (by rw [applyHunkBody]; simp)
      | cons l ls =>
        rw [applyHunkBody] at h
        by_cases hls : l = s
        · rw [if_pos hls] at h
          rcases Option.map_eq_some'.mp h with ⟨ws, hws, hw⟩
          subst hw
          subst hls
          rw [List.map_cons, swapDiffLine, applyHunkBody, if_pos rfl, ih ls ws hws]
          rfl
        · rw [if_neg hls] at h
          exact absurd h (by simp)
    | del s =>
      cases base with
      | nil => exact absurd h (by rw [applyHunkBody]; simp)
      | cons l ls =>
        rw [applyHunkBody] at h
        by_cases hls : l = s
        · rw [if_pos hls] at h
          subst hls
          rw [List.map_cons, swapDiffLine, applyHunkBody, ih ls weak h]
          rfl
        · rw [if_neg hls] at h
          exact absurd h (by simp)
    | add s =>
      rw [applyHunkBody] at h
      rcases Option.map_eq_some'.mp h with ⟨ws, hws, hw⟩
      subst hw
      rw [List.map_cons, swapDiffLine, applyHunkBody, if_pos rfl, ih base ws hws]

/-- C5 (amended): the oracle patch is `_reverse_diff` of `test_weaken_diff`,
which swaps every added body line to a removed one and vice versa but leaves
standard `--- a/` and `+++ b/` file headers (and hunk headers) unchanged;
for a well-formed hunk body that turns the baseline test-file lines into the
weakened ones, the reversed (swapped) body applied to the weakened lines
reproduces the baseline lines exactly. -/
theorem solver_C5_amended (body : List DiffLine) (base weak : List (List Char))
    (hwf : wellFormedHunkBody body = true)
    (hnl : ∀ l ∈ body.map renderDiffLine, '\n' ∉ l)
    (happ : applyHunkBody body base = some weak) :
    get_oracle_test_patch (List.intercalate ['\n'] (body.map renderDiffLine)) =
      List.intercalate ['\n'] ((body.map swapDiffLine).map renderDiffLine)
    ∧ applyHunkBody (body.map swapDiffLine) weak = some base := by
  refine ⟨?_, applyHunkBody_swap body base weak happ⟩
  unfold get_oracle_test_patch reverse_diff
  cases hb : body with
  | nil => rfl
  | cons dl rest =>
    rw [← hb]
    rw [show (List.intercalate ['\n'] (body.map renderDiffLine)).splitOn '\n' =
        body.map renderDiffLine from
      List.splitOn_intercalate (body.map renderDiffLine) '\n' hnl (by rw [hb]; simp)]
    rw [render_reverse_eq_swap body hwf]

/-- Witness for C5 (amended) on a one-hunk body `[ctx "x", del "y"]` taking
baseline `["x", "y"]` to weakened `["x"]`: the reversal turns the removed
line into an added one, and the swapped body restores the baseline. -/
theorem solver_C5_amended_witness :
    get_oracle_test_patch
        (List.intercalate ['\n']
          ([DiffLine.ctx ['x'], DiffLine.del ['y']].map renderDiffLine)) =
      List.intercalate ['\n']
        (([DiffLine.ctx ['x'], DiffLine.del ['y']].map swapDiffLine).map renderDiffLine)
    ∧ applyHunkBody ([DiffLine.ctx ['x'], DiffLine.del ['y']].map swapDiffLine)
        [['x']] = some [['x'], ['y']] := by
  exact solver_C5_amended [DiffLine.ctx ['x'], DiffLine.del ['y']]
    [['x'], ['y']] [['x']] (by decide) (by decide) (by decide)

end SSRStudio
